import Mathlib

/-!
Verification of the WSP (Workflow Satisfiability Problem) constraint encodings
of this repository.  The repository contains two solver drivers:

* `main.py` — an OR-Tools CP-SAT backend (`Solver`), which encodes the instance
  into a boolean model, enumerates solutions via a callback (capped at 1000),
  and classifies multiplicity by the number of enumerated solutions;
* `main2.py` — a Z3 backend (`Solver_z3`), which encodes the same instance,
  solves once, and probes for a second model via a blocking clause over the
  assignment grid.

We shallowly embed both encodings.  The assignment grid `user_assignment` is a
function `a : Nat → Nat → Bool` (`a s u` = step `s` is performed by user `u`).
Auxiliary booleans introduced by the encoders are passed as explicit extra
valuations.  A result "reported SAT" corresponds to the existence of a
valuation of all model variables satisfying every posted constraint; theorems
about SAT results take such a valuation as a hypothesis.
-/

namespace WSP

/-- Enumeration of the k-element subsequences of a list, in the order produced
by python's `itertools.combinations` (order irrelevant, no repeats), as used in
the At-most-k encoders of both backends. -/
def combinations : Nat → List Nat → List (List Nat)
  | 0, _ => [[]]
  | _ + 1, [] => []
  | n + 1, x :: xs => ((combinations n xs).map (fun c => x :: c)) ++ combinations (n + 1) xs

/-- All unordered pairs of elements of a list, in the order produced by
`itertools.combinations(steps_combination, 2)`. -/
def allPairs : List Nat → List (Nat × Nat)
  | [] => []
  | x :: xs => (xs.map (fun y => (x, y))) ++ allPairs xs

/-- The parsed problem instance, following the `Instance` class shared by
`main.py` and `main2.py`.  `auth` stores, per user, the list of authorized
steps (0-based); the parser may leave a `-1` placeholder in it, hence `Int`. -/
structure Instance where
  number_of_steps : Nat
  number_of_users : Nat
  number_of_constraints : Nat
  auth : List (List Int)
  SOD : List (Nat × Nat)
  BOD : List (Nat × Nat)
  at_most_k : List (Nat × List Nat)
  one_team : List (List Nat × List (List Nat))

/-- Number of users assigned to step `s` (the row sum of the grid). -/
def rowCount (nu : Nat) (a : Nat → Nat → Bool) (s : Nat) : Nat :=
  (List.range nu).countP (fun u => a s u)

/-- Number of steps assigned to user `u` (the column sum of the grid), the
quantity bounded by the max-load constraint of both solvers. -/
def loadOf (ns : Nat) (a : Nat → Nat → Bool) (u : Nat) : Nat :=
  (List.range ns).countP (fun s => a s u)

/-- Number of distinct users performing at least one step of `steps`. -/
def performersCount (nu : Nat) (a : Nat → Nat → Bool) (steps : List Nat) : Nat :=
  ((List.range nu).filter (fun u => steps.any (fun s => a s u))).length

/-- main.py line 143-144: `model.AddExactlyOne(user_assignment[step][user] ...)`
for every step. -/
def cpAssignOK (inst : Instance) (a : Nat → Nat → Bool) : Prop :=
  ∀ s, s < inst.number_of_steps → rowCount inst.number_of_users a s = 1

/-- main2.py lines 118-120: `Or(user_assignment[step])` (at least one) and
`AtMost(*user_assignment[step], 1)` (at most one) for every step.  This
describes the constraints posted by a *completed* encoding run; when
`number_of_users = 0` and a step exists, the encoding loop never completes —
z3py's `AtMost` raises a Z3Exception on the empty row before `check()` is
reached (see `z3EncodeOK`), so no constraint model and no result exist. -/
def z3AssignOK (inst : Instance) (a : Nat → Nat → Bool) : Prop :=
  ∀ s, s < inst.number_of_steps →
    (∃ u ∈ List.range inst.number_of_users, a s u = true) ∧
    rowCount inst.number_of_users a s ≤ 1

/-- main2.py line 120 calls z3py's `AtMost` with the arguments
`*user_assignment[step], 1`, i.e. the step's row of `number_of_users`
booleans plus the bound; z3py asserts that `AtMost` receives more than one
argument ("Non empty list of arguments expected") and raises a Z3Exception
otherwise.  The encoding loop of `Solver_z3` completes without raising
exactly when every executed `AtMost` call has more than one argument; with a
step and no users it raises, `Solver_z3` crashes before `check()`, and no
status is ever reported. -/
def z3EncodeOK (inst : Instance) : Prop :=
  ∀ s, s < inst.number_of_steps → 1 < inst.number_of_users + 1

/-- Authorization encoder, identical in main.py lines 147-151 and main2.py
lines 123-127: if the parsed `auth` entry of a user is non-empty, the user is
forbidden from every step not listed in it. -/
def authOK (inst : Instance) (a : Nat → Nat → Bool) : Prop :=
  ∀ u, u < inst.number_of_users → inst.auth.getD u [] ≠ [] →
    ∀ s, s < inst.number_of_steps → ((s : Int) ∉ inst.auth.getD u []) → a s u = false

/-- main.py lines 154-156: `Add(user_assignment[step2][user] == 0)
.OnlyEnforceIf(user_assignment[step1][user])` for each SOD pair and user. -/
def cpSodOK (inst : Instance) (a : Nat → Nat → Bool) : Prop :=
  ∀ p ∈ inst.SOD, ∀ u, u < inst.number_of_users → a p.1 u = true → a p.2 u = false

/-- main2.py lines 130-132: `Not(And(user_assignment[step1][user],
user_assignment[step2][user]))` for each SOD pair and user. -/
def z3SodOK (inst : Instance) (a : Nat → Nat → Bool) : Prop :=
  ∀ p ∈ inst.SOD, ∀ u, u < inst.number_of_users →
    ¬(a p.1 u = true ∧ a p.2 u = true)

/-- main.py lines 159-161: `Add(user_assignment[step2][user] == 1)
.OnlyEnforceIf(user_assignment[step1][user])` for each BOD pair and user. -/
def cpBodOK (inst : Instance) (a : Nat → Nat → Bool) : Prop :=
  ∀ p ∈ inst.BOD, ∀ u, u < inst.number_of_users → a p.1 u = true → a p.2 u = true

/-- main2.py lines 135-137: `user_assignment[step1][user] ==
user_assignment[step2][user]` for each BOD pair and user. -/
def z3BodOK (inst : Instance) (a : Nat → Nat → Bool) : Prop :=
  ∀ p ∈ inst.BOD, ∀ u, u < inst.number_of_users → a p.1 u = a p.2 u

/-- The body of the auxiliary equality booleans' implication: the two steps
have identical user assignments (`user_assignment[step1][user] ==
user_assignment[step2][user]` for every user). -/
def stepsEqual (nu : Nat) (a : Nat → Nat → Bool) (s1 s2 : Nat) : Prop :=
  ∀ u, u < nu → a s1 u = a s2 u

/-- The list of (k+1)-combinations generated for one at-most-k constraint. -/
def amkCombs (p : Nat × List Nat) : List (List Nat) :=
  combinations (p.1 + 1) p.2

/-- The at-most-k constraint at index `c` of the instance. -/
def amkAt (inst : Instance) (c : Nat) : Nat × List Nat :=
  inst.at_most_k.getD c (0, [])

/-- The `i`-th (k+1)-combination generated for the at-most-k constraint at
index `c`. -/
def amkCombAt (inst : Instance) (c i : Nat) : List Nat :=
  (amkCombs (amkAt inst c)).getD i []

/-- The `j`-th unordered step pair inside combination `i` of at-most-k
constraint `c`. -/
def amkPairAt (inst : Instance) (c i j : Nat) : Nat × Nat :=
  (allPairs (amkCombAt inst c i)).getD j (0, 0)

/-- main.py lines 164-186: for every at-most-k constraint and every
(k+1)-combination of its steps, a fresh boolean is created per unordered pair
in the combination; `e c i j` is the value of the boolean created for pair `j`
of combination `i` of constraint `c`.  Each boolean implies the two steps of
its pair have identical assignments, and `model.Add(sum(is_bool) >= 1)`
requires at least one boolean of the combination to be true. -/
def cpAtMostOK (inst : Instance) (a : Nat → Nat → Bool)
    (e : Nat → Nat → Nat → Bool) : Prop :=
  ∀ c, c < inst.at_most_k.length →
    ∀ i, i < (amkCombs (amkAt inst c)).length →
      (∀ j, j < (allPairs (amkCombAt inst c i)).length → e c i j = true →
        stepsEqual inst.number_of_users a (amkPairAt inst c i j).1 (amkPairAt inst c i j).2) ∧
      1 ≤ (List.range (allPairs (amkCombAt inst c i)).length).countP (fun j => e c i j)

/-- main2.py lines 140-148: same shape, except the auxiliary booleans are
created by a name derived from the step pair (`Equal_s..._s...`), so Z3
identifies them across combinations and constraints; `eqb` is therefore keyed
by the step pair. -/
def z3AtMostOK (inst : Instance) (a : Nat → Nat → Bool)
    (eqb : Nat → Nat → Bool) : Prop :=
  ∀ p ∈ inst.at_most_k, ∀ comb ∈ amkCombs p,
    (∀ q ∈ allPairs comb, eqb q.1 q.2 = true →
      stepsEqual inst.number_of_users a q.1 q.2) ∧
    1 ≤ (allPairs comb).countP (fun q => eqb q.1 q.2)

/-- The one-team constraint at index `c` of the instance. -/
def oneTeamAt (inst : Instance) (c : Nat) : List Nat × List (List Nat) :=
  inst.one_team.getD c ([], [])

/-- main.py lines 189-202: per one-team constraint, one `team_flags` boolean
per team with `AddExactlyOne(team_flags)`; if a team's flag is false, every
member of that team is forbidden from every step of the constraint; and any
user belonging to none of the candidate teams is forbidden from every step of
the constraint.  `flags c t` is the flag of team `t` of constraint `c`. -/
def cpOneTeamOK (inst : Instance) (a : Nat → Nat → Bool)
    (flags : Nat → Nat → Bool) : Prop :=
  ∀ c, c < inst.one_team.length →
    ((List.range (oneTeamAt inst c).2.length).countP (fun t => flags c t) = 1) ∧
    (∀ t, t < (oneTeamAt inst c).2.length → flags c t = false →
      ∀ s ∈ (oneTeamAt inst c).1, ∀ u ∈ (oneTeamAt inst c).2.getD t [], a s u = false) ∧
    (∀ s ∈ (oneTeamAt inst c).1, ∀ u, u < inst.number_of_users →
      (∀ tm ∈ (oneTeamAt inst c).2, u ∉ tm) → a s u = false)

/-- main2.py lines 151-156: per one-team constraint, the disjunction over the
candidate teams of "every step of the constraint is performed by some member
of that team". -/
def z3OneTeamOK (inst : Instance) (a : Nat → Nat → Bool) : Prop :=
  ∀ p ∈ inst.one_team, ∃ tm ∈ p.2, ∀ s ∈ p.1, ∃ u ∈ tm, a s u = true

/-- Max-load constraint, main.py lines 204-207 and main2.py lines 158-162:
every user performs at most 10 steps. -/
def maxLoadOK (inst : Instance) (a : Nat → Nat → Bool) : Prop :=
  ∀ u, u < inst.number_of_users → loadOf inst.number_of_steps a u ≤ 10

/-- The full OR-Tools model of main.py's `Solver`: a valuation `(a, e, flags)`
of all model variables satisfies every posted constraint. -/
def SatisfiesCp (inst : Instance) (a : Nat → Nat → Bool)
    (e : Nat → Nat → Nat → Bool) (flags : Nat → Nat → Bool) : Prop :=
  cpAssignOK inst a ∧ authOK inst a ∧ cpSodOK inst a ∧ cpBodOK inst a ∧
  cpAtMostOK inst a e ∧ cpOneTeamOK inst a flags ∧ maxLoadOK inst a

/-- The full Z3 model of main2.py's `Solver_z3`: a valuation `(a, eqb)` of all
model variables satisfies every posted constraint. -/
def SatisfiesZ3 (inst : Instance) (a : Nat → Nat → Bool)
    (eqb : Nat → Nat → Bool) : Prop :=
  z3AssignOK inst a ∧ authOK inst a ∧ z3SodOK inst a ∧ z3BodOK inst a ∧
  z3AtMostOK inst a eqb ∧ z3OneTeamOK inst a ∧ maxLoadOK inst a

/-- All five constraint families of main.py's `Solver` except the max-load
bound (which appears in the code but in none of the spec's five families). -/
def SatisfiesCpNoLoad (inst : Instance) (a : Nat → Nat → Bool)
    (e : Nat → Nat → Nat → Bool) (flags : Nat → Nat → Bool) : Prop :=
  cpAssignOK inst a ∧ authOK inst a ∧ cpSodOK inst a ∧ cpBodOK inst a ∧
  cpAtMostOK inst a e ∧ cpOneTeamOK inst a flags

/-- All five constraint families of main2.py's `Solver_z3` except the max-load
bound. -/
def SatisfiesZ3NoLoad (inst : Instance) (a : Nat → Nat → Bool)
    (eqb : Nat → Nat → Bool) : Prop :=
  z3AssignOK inst a ∧ authOK inst a ∧ z3SodOK inst a ∧ z3BodOK inst a ∧
  z3AtMostOK inst a eqb ∧ z3OneTeamOK inst a

/-- Well-formedness of a parsed instance: every step/user index mentioned by a
constraint is in range (the spec's Instance invariant; the python code indexes
`user_assignment` with these, so an out-of-range index would crash there). -/
def Instance.WF (inst : Instance) : Prop :=
  inst.auth.length = inst.number_of_users ∧
  (∀ p ∈ inst.SOD, p.1 < inst.number_of_steps ∧ p.2 < inst.number_of_steps) ∧
  (∀ p ∈ inst.BOD, p.1 < inst.number_of_steps ∧ p.2 < inst.number_of_steps) ∧
  (∀ p ∈ inst.at_most_k, ∀ s ∈ p.2, s < inst.number_of_steps) ∧
  (∀ p ∈ inst.one_team, (∀ s ∈ p.1, s < inst.number_of_steps) ∧
    (∀ tm ∈ p.2, ∀ u ∈ tm, u < inst.number_of_users))

instance decStepsEqual (nu : Nat) (a : Nat → Nat → Bool) (s1 s2 : Nat) :
    Decidable (stepsEqual nu a s1 s2) := by
  unfold stepsEqual; infer_instance

instance decCpAssignOK (inst : Instance) (a : Nat → Nat → Bool) :
    Decidable (cpAssignOK inst a) := by
  unfold cpAssignOK; infer_instance

instance decZ3AssignOK (inst : Instance) (a : Nat → Nat → Bool) :
    Decidable (z3AssignOK inst a) := by
  unfold z3AssignOK; infer_instance

instance decAuthOK (inst : Instance) (a : Nat → Nat → Bool) :
    Decidable (authOK inst a) := by
  unfold authOK; infer_instance

instance decCpSodOK (inst : Instance) (a : Nat → Nat → Bool) :
    Decidable (cpSodOK inst a) := by
  unfold cpSodOK; infer_instance

instance decZ3SodOK (inst : Instance) (a : Nat → Nat → Bool) :
    Decidable (z3SodOK inst a) := by
  unfold z3SodOK; infer_instance

instance decCpBodOK (inst : Instance) (a : Nat → Nat → Bool) :
    Decidable (cpBodOK inst a) := by
  unfold cpBodOK; infer_instance

instance decZ3BodOK (inst : Instance) (a : Nat → Nat → Bool) :
    Decidable (z3BodOK inst a) := by
  unfold z3BodOK; infer_instance

instance decCpAtMostOK (inst : Instance) (a : Nat → Nat → Bool)
    (e : Nat → Nat → Nat → Bool) : Decidable (cpAtMostOK inst a e) := by
  unfold cpAtMostOK; infer_instance

instance decZ3AtMostOK (inst : Instance) (a : Nat → Nat → Bool)
    (eqb : Nat → Nat → Bool) : Decidable (z3AtMostOK inst a eqb) := by
  unfold z3AtMostOK; infer_instance

instance decCpOneTeamOK (inst : Instance) (a : Nat → Nat → Bool)
    (flags : Nat → Nat → Bool) : Decidable (cpOneTeamOK inst a flags) := by
  unfold cpOneTeamOK; infer_instance

instance decZ3OneTeamOK (inst : Instance) (a : Nat → Nat → Bool) :
    Decidable (z3OneTeamOK inst a) := by
  unfold z3OneTeamOK; infer_instance

instance decMaxLoadOK (inst : Instance) (a : Nat → Nat → Bool) :
    Decidable (maxLoadOK inst a) := by
  unfold maxLoadOK; infer_instance

instance decSatisfiesCp (inst : Instance) (a : Nat → Nat → Bool)
    (e : Nat → Nat → Nat → Bool) (flags : Nat → Nat → Bool) :
    Decidable (SatisfiesCp inst a e flags) := by
  unfold SatisfiesCp; infer_instance

instance decSatisfiesZ3 (inst : Instance) (a : Nat → Nat → Bool)
    (eqb : Nat → Nat → Bool) : Decidable (SatisfiesZ3 inst a eqb) := by
  unfold SatisfiesZ3; infer_instance

instance decSatisfiesCpNoLoad (inst : Instance) (a : Nat → Nat → Bool)
    (e : Nat → Nat → Nat → Bool) (flags : Nat → Nat → Bool) :
    Decidable (SatisfiesCpNoLoad inst a e flags) := by
  unfold SatisfiesCpNoLoad; infer_instance

instance decSatisfiesZ3NoLoad (inst : Instance) (a : Nat → Nat → Bool)
    (eqb : Nat → Nat → Bool) : Decidable (SatisfiesZ3NoLoad inst a eqb) := by
  unfold SatisfiesZ3NoLoad; infer_instance

instance decWF (inst : Instance) : Decidable inst.WF := by
  unfold Instance.WF; infer_instance

instance decZ3EncodeOK (inst : Instance) : Decidable (z3EncodeOK inst) := by
  unfold z3EncodeOK; infer_instance

/-- Grid-level content of the at-most-k encoding, after projecting away the
auxiliary booleans: within every (k+1)-combination some unordered pair of
steps has identical user assignments. -/
def atMostGridOK (inst : Instance) (a : Nat → Nat → Bool) : Prop :=
  ∀ p ∈ inst.at_most_k, ∀ comb ∈ amkCombs p,
    ∃ q ∈ allPairs comb, stepsEqual inst.number_of_users a q.1 q.2

instance decAtMostGridOK (inst : Instance) (a : Nat → Nat → Bool) :
    Decidable (atMostGridOK inst a) := by
  unfold atMostGridOK; infer_instance

/-- The instance with every at-most-k constraint whose step set has fewer than
k+1 steps removed (such a constraint generates no combination, hence no
clause). -/
def dropVacuousAtMost (inst : Instance) : Instance :=
  { inst with at_most_k := inst.at_most_k.filter (fun p => decide (p.1 + 1 ≤ p.2.length)) }

/-- Overwrite column `u` (one user's variables) of a grid with `b`. -/
def setColumn (a : Nat → Nat → Bool) (u : Nat) (b : Nat → Bool) : Nat → Nat → Bool :=
  fun s v => if v = u then b s else a s v

/-- The step list parsed from an `Authorisations u<i> ...` line, following
read_file of main.py lines 82-89 (identically main2.py lines 52-59): the list
starts as `[-1]`; for each step token the `-1` placeholder, when present, is
removed first, then the 0-based step is appended.  With no step tokens the
placeholder `[-1]` remains. -/
def authSteps (tokens : List Nat) : List Int :=
  tokens.foldl
    (fun acc t => (if (-1 : Int) ∈ acc then acc.erase (-1) else acc) ++ [(t : Int) - 1])
    [(-1 : Int)]

/-- Outcome statuses of OR-Tools CP-SAT's `Solve`, as distinguished by
main.py. -/
inductive CpStatus where
  | OPTIMAL
  | FEASIBLE
  | INFEASIBLE
  | MODEL_INVALID
  | UNKNOWN
deriving DecidableEq

/-- main.py lines 220-231: `result['sat']` starts as `'unsat'` and is set to
`'sat'` exactly when the solver status is OPTIMAL or FEASIBLE. -/
def cpSatField (st : CpStatus) : String :=
  if st = CpStatus.OPTIMAL ∨ st = CpStatus.FEASIBLE then "sat" else "unsat"

/-- main.py lines 14-20 (`transform_output`): the status line rendered from
`result['sat']`. -/
def statusLine (sat : String) : String :=
  if sat = "sat" then "Status: Satisfiable" else "Status: Unsatisfiable"

/-- Outcomes of Z3's `check()`, as distinguished by main2.py. -/
inductive Z3CheckResult where
  | sat
  | unsat
  | unknown
deriving DecidableEq

/-- main2.py lines 168-177: `result['sat']` starts as `'unsat'` and is set to
`'Status: Satisfiable'` exactly when `check()` returns `sat`. -/
def z3SatField (r : Z3CheckResult) : String :=
  if r = Z3CheckResult.sat then "Status: Satisfiable" else "unsat"

/-- main.py line 231: the multiplicity note rendered from the number of
solutions counted by the enumeration callback. -/
def cpMulMsg (n : Nat) : String :=
  if 1 < n then "other solutions exist, " ++ toString n ++ " solutions found"
  else "this is the only solution"

/-- main2.py lines 198-201: the multiplicity note rendered from whether the
re-solve after adding the grid-blocking clause is SAT. -/
def z3MulMsg (second : Bool) : String :=
  if second then "other solutions exist, 2 solutions found"
  else "this is the only solution"

/-! Concrete instances used as witnesses and counterexamples. -/

/-- 2 steps, 2 users, `At-most-k 1 s1 s2`. -/
def instW1 : Instance := ⟨2, 2, 1, [[], []], [], [], [(1, [0, 1])], []⟩

/-- 1 step, 1 user, no constraints. -/
def instW2 : Instance := ⟨1, 1, 0, [[]], [], [], [], []⟩

/-- 1 step, 2 users, no constraints. -/
def instW5 : Instance := ⟨1, 2, 0, [[], []], [], [], [], []⟩

/-- 1 step, 0 users, no constraints: the case spec section 4.1 requires to be
surfaced as UNSAT. -/
def inst01 : Instance := ⟨1, 0, 0, [], [], [], [], []⟩

/-- 1 step, 1 user, `At-most-k 1 s1` and `One-team s1 (u1) (u1)`: the single
user belongs to both candidate teams, a membership pattern spec section 4.5
explicitly permits. -/
def instD : Instance := ⟨1, 1, 2, [[]], [], [], [(1, [0])], [([0], [[0], [0]])]⟩

/-- 1 step, 2 users, `One-team s1 (u1) (u2)`. -/
def instW6 : Instance := ⟨1, 2, 1, [[], []], [], [], [], [([0], [[0], [1]])]⟩

/-- 2 steps, 1 user, `Binding-of-duty s1 s2`. -/
def instW9 : Instance := ⟨2, 1, 1, [[]], [], [(0, 1)], [], []⟩

/-- 1 step, 1 user, `At-most-k 2 s1` — one step is fewer than k+1 = 3 steps. -/
def instW10 : Instance := ⟨1, 1, 1, [[]], [], [], [(2, [0])], []⟩

/-- 11 steps, 1 user, no constraints: every assignment satisfying the five
constraint families gives the single user 11 steps, which the max-load bound
of 10 forbids. -/
def inst11 : Instance := ⟨11, 1, 0, [[]], [], [], [], []⟩

/-- 1 step, 1 user, `Authorisations u1` with no steps listed: the parser
leaves `auth = [[-1]]`. -/
def instC8 : Instance := ⟨1, 1, 1, [authSteps []], [], [], [], []⟩

/-- 3 steps, 1 user, `At-most-k 2 s1 s2 s3`: the grid is forced (the single
user performs all three steps) but the three pair-equality booleans of the
single 3-combination are only constrained by "at least one is true". -/
def instCE : Instance := ⟨3, 1, 1, [[]], [], [], [(2, [0, 1, 2])], []⟩

/-- Grid sending every step to user 0. -/
def gridU0 : Nat → Nat → Bool := fun _ u => decide (u = 0)

/-- Grid sending every step to user 1. -/
def gridU1 : Nat → Nat → Bool := fun _ u => decide (u = 1)

/-- Auxiliary valuation making every CP pair-equality boolean true. -/
def auxTrue3 : Nat → Nat → Nat → Bool := fun _ _ _ => true

/-- Auxiliary valuation making every Z3 pair-equality boolean true. -/
def auxTrue2 : Nat → Nat → Bool := fun _ _ => true

/-- Team-flag valuation with every flag false (no one-team constraints). -/
def auxFalse2 : Nat → Nat → Bool := fun _ _ => false

/-- Team-flag valuation activating team 0 of every one-team constraint. -/
def flagT0 : Nat → Nat → Bool := fun _ t => decide (t = 0)

/-- The variables of main.py's CP model for `instCE`, in order: the three grid
booleans `s1u1, s2u1, s3u1`, then the three pair-equality booleans of the
single 3-combination (pairs `(s1,s2), (s1,s3), (s2,s3)`). -/
abbrev Vec6 := Bool × Bool × Bool × Bool × Bool × Bool

/-- Decode the grid part of a `Vec6` valuation. -/
def ceGrid (m : Vec6) : Nat → Nat → Bool :=
  fun s u =>
    if s = 0 ∧ u = 0 then m.1
    else if s = 1 ∧ u = 0 then m.2.1
    else if s = 2 ∧ u = 0 then m.2.2.1
    else false

/-- Decode the CP pair-equality booleans of a `Vec6` valuation (constraint 0,
combination 0, pairs 0-2). -/
def ceAux (m : Vec6) : Nat → Nat → Nat → Bool :=
  fun c i j =>
    if c = 0 ∧ i = 0 ∧ j = 0 then m.2.2.2.1
    else if c = 0 ∧ i = 0 ∧ j = 1 then m.2.2.2.2.1
    else if c = 0 ∧ i = 0 ∧ j = 2 then m.2.2.2.2.2
    else false

/-- Decode the Z3 pair-equality booleans `Equal_s1_s2, Equal_s1_s3,
Equal_s2_s3` of a `Vec6` valuation. -/
def ceEqb (m : Vec6) : Nat → Nat → Bool :=
  fun s1 s2 =>
    if s1 = 0 ∧ s2 = 1 then m.2.2.2.1
    else if s1 = 0 ∧ s2 = 2 then m.2.2.2.2.1
    else if s1 = 1 ∧ s2 = 2 then m.2.2.2.2.2
    else false

/-- The grid (assignment) part of a `Vec6` valuation. -/
def ceGridPart (m : Vec6) : Bool × Bool × Bool := (m.1, m.2.1, m.2.2.1)

/-- All satisfying valuations of main.py's CP model for `instCE`: exactly what
CP-SAT's `enumerate_all_solutions` enumerates (distinct assignments to all
model variables, auxiliary booleans included) and what the
`VarArraySolutionPrinter` callback counts. -/
def cpFullCE : Finset Vec6 :=
  Finset.univ.filter (fun m => SatisfiesCp instCE (ceGrid m) (ceAux m) auxFalse2)

/-- All satisfying valuations of main2.py's Z3 model for `instCE`. -/
def z3FullCE : Finset Vec6 :=
  Finset.univ.filter (fun m => SatisfiesZ3 instCE (ceGrid m) (ceEqb m))

/-! Helper lemmas about counting, `combinations` and `allPairs`. -/

theorem countP_range_le_one_unique {n : Nat} {f : Nat → Bool}
    (h : (List.range n).countP (fun i => f i) ≤ 1) :
    ∀ i, i < n → f i = true → ∀ j, j < n → f j = true → i = j := by
  intro i hi hfi j hj hfj
  by_contra hne
  have hi2 : i ∈ (List.range n).filter (fun i => f i) :=
    List.mem_filter.mpr ⟨List.mem_range.mpr hi, hfi⟩
  have hj2 : j ∈ (List.range n).filter (fun i => f i) :=
    List.mem_filter.mpr ⟨List.mem_range.mpr hj, hfj⟩
  have hsub : ({i, j} : Finset Nat) ⊆ ((List.range n).filter (fun i => f i)).toFinset := by
    intro x hx
    rcases Finset.mem_insert.mp hx with rfl | hx2
    · exact List.mem_toFinset.mpr hi2
    · rcases Finset.mem_singleton.mp hx2 with rfl
      exact List.mem_toFinset.mpr hj2
  have h2 : 2 ≤ ((List.range n).filter (fun i => f i)).length := by
    have hcard : ({i, j} : Finset Nat).card = 2 := by
      rw [Finset.card_insert_of_not_mem (by simpa using hne), Finset.card_singleton]
    calc 2 = ({i, j} : Finset Nat).card := hcard.symm
      _ ≤ ((List.range n).filter (fun i => f i)).toFinset.card := Finset.card_le_card hsub
      _ ≤ ((List.range n).filter (fun i => f i)).length := List.toFinset_card_le _
  rw [List.countP_eq_length_filter] at h
  omega

theorem countP_range_pos {n i : Nat} {f : Nat → Bool}
    (hi : i < n) (hfi : f i = true) : 1 ≤ (List.range n).countP (fun j => f j) := by
  have : i ∈ (List.range n).filter (fun j => f j) :=
    List.mem_filter.mpr ⟨List.mem_range.mpr hi, hfi⟩
  rw [List.countP_eq_length_filter]
  exact List.length_pos.mpr (List.ne_nil_of_mem this)

theorem countP_range_one_exists {n : Nat} {f : Nat → Bool}
    (h : (List.range n).countP (fun i => f i) = 1) : ∃ i, i < n ∧ f i = true := by
  have hpos : 0 < (List.range n).countP (fun i => f i) := by omega
  obtain ⟨i, hi, hfi⟩ := List.countP_pos_iff.mp hpos
  exact ⟨i, List.mem_range.mp hi, hfi⟩

theorem rowCount_one_exists {nu : Nat} {a : Nat → Nat → Bool} {s : Nat}
    (h : rowCount nu a s = 1) : ∃ u, u < nu ∧ a s u = true :=
  countP_range_one_exists h

theorem rowCount_le_one_unique {nu : Nat} {a : Nat → Nat → Bool} {s : Nat}
    (h : rowCount nu a s ≤ 1) :
    ∀ u, u < nu → a s u = true → ∀ v, v < nu → a s v = true → u = v :=
  countP_range_le_one_unique h

theorem rowCount_pos {nu : Nat} {a : Nat → Nat → Bool} {s u : Nat}
    (hu : u < nu) (ha : a s u = true) : 1 ≤ rowCount nu a s :=
  countP_range_pos hu ha

theorem mem_combinations_of_sublist :
    ∀ {l c : List Nat} {n : Nat}, c.Sublist l → c.length = n → c ∈ combinations n l := by
  intro l
  induction l with
  | nil =>
    intro c n hc hlen
    rcases List.sublist_nil.mp hc with rfl
    rcases hlen with rfl
    simp [combinations]
  | cons x xs ih =>
    intro c n hc hlen
    cases n with
    | zero =>
      rcases List.length_eq_zero.mp hlen with rfl
      simp [combinations]
    | succ m =>
      cases hc with
      | cons _ h =>
        have := ih h hlen
        simp only [combinations, List.mem_append]
        exact Or.inr this
      | cons₂ _ h =>
        rename_i c'
        have hlen' : c'.length = m := by simpa using hlen
        have := ih h hlen'
        simp only [combinations, List.mem_append, List.mem_map]
        exact Or.inl ⟨c', this, rfl⟩

theorem sublist_length_of_mem_combinations :
    ∀ {l c : List Nat} {n : Nat}, c ∈ combinations n l → c.Sublist l ∧ c.length = n := by
  intro l
  induction l with
  | nil =>
    intro c n hc
    cases n with
    | zero =>
      simp only [combinations, List.mem_singleton] at hc
      rcases hc with rfl
      exact ⟨List.Sublist.refl _, rfl⟩
    | succ m => simp [combinations] at hc
  | cons x xs ih =>
    intro c n hc
    cases n with
    | zero =>
      simp only [combinations, List.mem_singleton] at hc
      rcases hc with rfl
      exact ⟨List.nil_sublist _, rfl⟩
    | succ m =>
      simp only [combinations, List.mem_append, List.mem_map] at hc
      rcases hc with ⟨c', hc', rfl⟩ | hc'
      · obtain ⟨hsub, hlen⟩ := ih hc'
        exact ⟨hsub.cons₂ x, by simp [hlen]⟩
      · obtain ⟨hsub, hlen⟩ := ih hc'
        exact ⟨hsub.cons x, hlen⟩

theorem combinations_eq_nil {l : List Nat} {n : Nat} (h : l.length < n) :
    combinations n l = [] := by
  apply List.eq_nil_iff_forall_not_mem.mpr
  intro c hc
  obtain ⟨hsub, hlen⟩ := sublist_length_of_mem_combinations hc
  have := hsub.length_le
  omega

theorem mem_of_mem_allPairs :
    ∀ {l : List Nat} {q : Nat × Nat}, q ∈ allPairs l → q.1 ∈ l ∧ q.2 ∈ l := by
  intro l
  induction l with
  | nil => intro q hq; simp [allPairs] at hq
  | cons x xs ih =>
    intro q hq
    simp only [allPairs, List.mem_append, List.mem_map] at hq
    rcases hq with ⟨y, hy, rfl⟩ | hq
    · exact ⟨List.mem_cons_self x xs, List.mem_cons_of_mem x hy⟩
    · obtain ⟨h1, h2⟩ := ih hq
      exact ⟨List.mem_cons_of_mem x h1, List.mem_cons_of_mem x h2⟩

theorem ne_of_mem_allPairs :
    ∀ {l : List Nat} {q : Nat × Nat}, l.Nodup → q ∈ allPairs l → q.1 ≠ q.2 := by
  intro l
  induction l with
  | nil => intro q _ hq; simp [allPairs] at hq
  | cons x xs ih =>
    intro q hnd hq
    simp only [allPairs, List.mem_append, List.mem_map] at hq
    rcases hq with ⟨y, hy, rfl⟩ | hq
    · intro hxy
      have hxy2 : x = y := hxy
      exact (List.nodup_cons.mp hnd).1 (hxy2 ▸ hy)
    · exact ih (List.nodup_cons.mp hnd).2 hq

/-- Projecting the OR-Tools at-most-k encoding onto the grid: a valuation of
the fresh pair-equality booleans satisfying main.py lines 164-186 exists for a
given grid exactly when every generated combination contains a pair of steps
with identical assignments. -/
theorem exists_cpAtMost_iff (inst : Instance) (a : Nat → Nat → Bool) :
    (∃ e, cpAtMostOK inst a e) ↔ atMostGridOK inst a := by
  constructor
  · rintro ⟨e, he⟩ p hp comb hcomb
    obtain ⟨c, hc, hgetc⟩ := List.mem_iff_getElem.mp hp
    have hamk : amkAt inst c = p := by
      rw [amkAt, List.getD_eq_getElem inst.at_most_k (0, []) hc, hgetc]
    obtain ⟨i, hi, hgeti⟩ := List.mem_iff_getElem.mp hcomb
    have hi2 : i < (amkCombs (amkAt inst c)).length := by rw [hamk]; exact hi
    have hcombat : amkCombAt inst c i = comb := by
      rw [amkCombAt, hamk]
      rw [List.getD_eq_getElem (amkCombs p) [] hi, hgeti]
    obtain ⟨himp, hsum⟩ := he c hc i hi2
    obtain ⟨j, hj, hej⟩ := List.countP_pos_iff.mp hsum
    have hj2 : j < (allPairs (amkCombAt inst c i)).length := List.mem_range.mp hj
    refine ⟨amkPairAt inst c i j, ?_, himp j hj2 hej⟩
    rw [← hcombat, amkPairAt, List.getD_eq_getElem (allPairs (amkCombAt inst c i)) (0, 0) hj2]
    exact List.getElem_mem _
  · intro hg
    refine ⟨fun c i j => decide
      (stepsEqual inst.number_of_users a (amkPairAt inst c i j).1 (amkPairAt inst c i j).2), ?_⟩
    intro c hc i hi
    constructor
    · intro j hj he
      exact of_decide_eq_true he
    · have hpmem : amkAt inst c ∈ inst.at_most_k := by
        rw [amkAt, List.getD_eq_getElem inst.at_most_k (0, []) hc]
        exact List.getElem_mem _
      have hcmem : amkCombAt inst c i ∈ amkCombs (amkAt inst c) := by
        rw [amkCombAt, List.getD_eq_getElem (amkCombs (amkAt inst c)) [] hi]
        exact List.getElem_mem _
      obtain ⟨q, hq, hqeq⟩ := hg (amkAt inst c) hpmem (amkCombAt inst c i) hcmem
      obtain ⟨j, hj, hgetj⟩ := List.mem_iff_getElem.mp hq
      have hpair : amkPairAt inst c i j = q := by
        rw [amkPairAt, List.getD_eq_getElem (allPairs (amkCombAt inst c i)) (0, 0) hj, hgetj]
      apply countP_range_pos hj
      show decide (stepsEqual inst.number_of_users a
        (amkPairAt inst c i j).1 (amkPairAt inst c i j).2) = true
      rw [hpair]
      exact decide_eq_true hqeq

/-- Projecting the Z3 at-most-k encoding onto the grid: a valuation of the
named `Equal_s_s` booleans satisfying main2.py lines 140-148 exists for a
given grid exactly when every generated combination contains a pair of steps
with identical assignments — the same grid-level condition as for the
OR-Tools encoding. -/
theorem exists_z3AtMost_iff (inst : Instance) (a : Nat → Nat → Bool) :
    (∃ eqb, z3AtMostOK inst a eqb) ↔ atMostGridOK inst a := by
  constructor
  · rintro ⟨eqb, he⟩ p hp comb hcomb
    obtain ⟨himp, hsum⟩ := he p hp comb hcomb
    obtain ⟨q, hq, hqe⟩ := List.countP_pos_iff.mp hsum
    exact ⟨q, hq, himp q hq hqe⟩
  · intro hg
    refine ⟨fun s1 s2 => decide (stepsEqual inst.number_of_users a s1 s2), ?_⟩
    intro p hp comb hcomb
    refine ⟨fun q _ hq => of_decide_eq_true hq, ?_⟩
    obtain ⟨q, hq, hqeq⟩ := hg p hp comb hcomb
    exact List.countP_pos_iff.mpr ⟨q, hq, decide_eq_true hqeq⟩

/-- The two Z3 per-step constraints (at least one user, at most one user)
amount to a row count of exactly one, as in the OR-Tools `AddExactlyOne`. -/
theorem z3AssignOK_rowCount {inst : Instance} {a : Nat → Nat → Bool}
    (h : z3AssignOK inst a) :
    ∀ s, s < inst.number_of_steps → rowCount inst.number_of_users a s = 1 := by
  intro s hs
  obtain ⟨⟨u, hu, hau⟩, hle⟩ := h s hs
  have := rowCount_pos (List.mem_range.mp hu) hau
  omega

/-- Satisfiability of the full OR-Tools model, with the existentially
quantified auxiliary booleans pushed to the components that use them. -/
theorem exists_satCp_iff (inst : Instance) (a : Nat → Nat → Bool) :
    (∃ e flags, SatisfiesCp inst a e flags) ↔
      cpAssignOK inst a ∧ authOK inst a ∧ cpSodOK inst a ∧ cpBodOK inst a ∧
      atMostGridOK inst a ∧ (∃ flags, cpOneTeamOK inst a flags) ∧ maxLoadOK inst a := by
  constructor
  · rintro ⟨e, flags, h1, h2, h3, h4, h5, h6, h7⟩
    exact ⟨h1, h2, h3, h4, (exists_cpAtMost_iff inst a).mp ⟨e, h5⟩, ⟨flags, h6⟩, h7⟩
  · rintro ⟨h1, h2, h3, h4, h5, ⟨flags, h6⟩, h7⟩
    obtain ⟨e, he⟩ := (exists_cpAtMost_iff inst a).mpr h5
    exact ⟨e, flags, h1, h2, h3, h4, he, h6, h7⟩

/-- Satisfiability of the full Z3 model, with the existentially quantified
pair-equality booleans pushed to the at-most-k component. -/
theorem exists_satZ3_iff (inst : Instance) (a : Nat → Nat → Bool) :
    (∃ eqb, SatisfiesZ3 inst a eqb) ↔
      z3AssignOK inst a ∧ authOK inst a ∧ z3SodOK inst a ∧ z3BodOK inst a ∧
      atMostGridOK inst a ∧ z3OneTeamOK inst a ∧ maxLoadOK inst a := by
  constructor
  · rintro ⟨eqb, h1, h2, h3, h4, h5, h6, h7⟩
    exact ⟨h1, h2, h3, h4, (exists_z3AtMost_iff inst a).mp ⟨eqb, h5⟩, h6, h7⟩
  · rintro ⟨h1, h2, h3, h4, h5, h6, h7⟩
    obtain ⟨eqb, he⟩ := (exists_z3AtMost_iff inst a).mpr h5
    exact ⟨eqb, h1, h2, h3, h4, he, h6, h7⟩

/-- Pigeonhole core of the at-most-k encoding: if every step has exactly one
performer and every (k+1)-combination of `steps` contains a pair of steps
with identical assignments, then at most `k` distinct users perform steps of
`steps`. -/
theorem performers_le (numSteps numUsers k : Nat) (a : Nat → Nat → Bool) (steps : List Nat)
    (hrows : ∀ s, s < numSteps → rowCount numUsers a s = 1)
    (hsteps : ∀ s ∈ steps, s < numSteps)
    (hcombs : ∀ comb ∈ combinations (k + 1) steps,
      ∃ q ∈ allPairs comb, stepsEqual numUsers a q.1 q.2) :
    performersCount numUsers a steps ≤ k := by
  by_contra hgt
  push_neg at hgt
  unfold performersCount at hgt
  classical
  set U : List Nat := (List.range numUsers).filter (fun u => steps.any (fun s => a s u)) with hU
  have hUlen : k + 1 ≤ U.length := hgt
  have hUnodup : U.Nodup := (List.nodup_range numUsers).filter _
  have hUex : ∀ u ∈ U, ∃ s, s ∈ steps ∧ a s u = true := by
    intro u hu
    obtain ⟨s, hs, has⟩ := List.any_eq_true.mp (List.mem_filter.mp hu).2
    exact ⟨s, hs, has⟩
  have hUlt : ∀ u ∈ U, u < numUsers := fun u hu =>
    List.mem_range.mp (List.mem_filter.mp hu).1
  set τ : Nat → Nat :=
    fun u => if h : ∃ s, s ∈ steps ∧ a s u = true then h.choose else 0 with hτ
  have hτ_mem : ∀ u ∈ U, τ u ∈ steps := by
    intro u hu
    have h := hUex u hu
    simp only [hτ, dif_pos h]
    exact h.choose_spec.1
  have hτ_true : ∀ u ∈ U, a (τ u) u = true := by
    intro u hu
    have h := hUex u hu
    simp only [hτ, dif_pos h]
    exact h.choose_spec.2
  set W : Finset Nat := U.toFinset.image τ with hW
  have hτ_inj : Set.InjOn τ U.toFinset := by
    intro u1 h1 u2 h2 heq
    have h1m : u1 ∈ U := List.mem_toFinset.mp h1
    have h2m : u2 ∈ U := List.mem_toFinset.mp h2
    have hlt : τ u1 < numSteps := hsteps _ (hτ_mem u1 h1m)
    exact rowCount_le_one_unique (le_of_eq (hrows (τ u1) hlt))
      u1 (hUlt u1 h1m) (hτ_true u1 h1m)
      u2 (hUlt u2 h2m) (by rw [heq]; exact hτ_true u2 h2m)
  have hWcard : W.card = U.length := by
    rw [hW, Finset.card_image_of_injOn hτ_inj, List.toFinset_card_of_nodup hUnodup]
  have hk1 : k + 1 ≤ W.card := by omega
  obtain ⟨S, hSsub, hScard⟩ := Finset.exists_subset_card_eq hk1
  have hS_steps : ∀ x ∈ S, x ∈ steps := by
    intro x hx
    obtain ⟨u, hu, rfl⟩ := Finset.mem_image.mp (hSsub hx)
    exact hτ_mem u (List.mem_toFinset.mp hu)
  set comb : List Nat := (steps.filter (fun s => decide (s ∈ S))).dedup with hcombdef
  have hsub : comb.Sublist steps := (List.dedup_sublist _).trans (List.filter_sublist _)
  have hnd : comb.Nodup := List.nodup_dedup _
  have hmemc : ∀ x, x ∈ comb ↔ x ∈ S := by
    intro x
    constructor
    · intro hx
      exact of_decide_eq_true (List.mem_filter.mp (List.mem_dedup.mp hx)).2
    · intro hx
      exact List.mem_dedup.mpr (List.mem_filter.mpr ⟨hS_steps x hx, decide_eq_true hx⟩)
  have hcfin : comb.toFinset = S := by
    ext x
    rw [List.mem_toFinset]
    exact hmemc x
  have hlen : comb.length = k + 1 := by
    rw [← List.toFinset_card_of_nodup hnd, hcfin, hScard]
  obtain ⟨q, hq, hqeq⟩ := hcombs comb (mem_combinations_of_sublist hsub hlen)
  have hne : q.1 ≠ q.2 := ne_of_mem_allPairs hnd hq
  obtain ⟨hq1, hq2⟩ := mem_of_mem_allPairs hq
  obtain ⟨u1, hu1, hτ1⟩ := Finset.mem_image.mp (hSsub ((hmemc q.1).mp hq1))
  obtain ⟨u2, hu2, hτ2⟩ := Finset.mem_image.mp (hSsub ((hmemc q.2).mp hq2))
  have hu1m : u1 ∈ U := List.mem_toFinset.mp hu1
  have hu2m : u2 ∈ U := List.mem_toFinset.mp hu2
  have ha1 : a q.1 u1 = true := by rw [← hτ1]; exact hτ_true u1 hu1m
  have ha2 : a q.2 u2 = true := by rw [← hτ2]; exact hτ_true u2 hu2m
  have ha21 : a q.2 u1 = true := by rw [← hqeq u1 (hUlt u1 hu1m)]; exact ha1
  have hq2lt : q.2 < numSteps := hsteps _ (hS_steps _ ((hmemc q.2).mp hq2))
  have hueq : u1 = u2 := rowCount_le_one_unique (le_of_eq (hrows q.2 hq2lt))
    u1 (hUlt u1 hu1m) ha21 u2 (hUlt u2 hu2m) ha2
  exact hne (by rw [← hτ1, ← hτ2, hueq])

/-- A Z3 model of an instance without one-team constraints transfers to an
OR-Tools model with the same grid: the grid-level content of the two at-most-k
encodings coincides, and the remaining CP constraints are implied by their Z3
counterparts. -/
theorem z3_to_cp_of_no_one_team (inst : Instance) (hteam : inst.one_team = [])
    (a : Nat → Nat → Bool) (eqb : Nat → Nat → Bool) (h : SatisfiesZ3 inst a eqb) :
    ∃ e flags, SatisfiesCp inst a e flags := by
  obtain ⟨h1, h2, h3, h4, h5, h6, h7⟩ := h
  apply (exists_satCp_iff inst a).mpr
  refine ⟨z3AssignOK_rowCount h1, h2, ?_, ?_,
    (exists_z3AtMost_iff inst a).mp ⟨eqb, h5⟩, ⟨auxFalse2, ?_⟩, h7⟩
  · intro p hp u hu hau
    cases hcase : a p.2 u
    · rfl
    · exact absurd ⟨hau, hcase⟩ (h3 p hp u hu)
  · intro p hp u hu hau
    rw [← h4 p hp u hu]
    exact hau
  · intro c hc
    rw [hteam] at hc
    simp at hc

/-- The two backends' one-team encodings genuinely differ: on `instD` (1
step, 1 user, `At-most-k 1 s1`, `One-team s1 (u1) (u1)`) main2.py's model is
satisfiable, so `Solver_z3` reports SAT, while main.py's model has no
valuation — whichever team flag is false forbids the user from the step — so
`Solver` reports UNSAT.  The two backends therefore report SAT on different
sets of instances, which is why the theorems below condition each backend's
conclusion only on that backend's own model. -/
theorem cp_z3_one_team_divergence :
    SatisfiesZ3 instD gridU0 auxTrue2 ∧
    ¬∃ a e flags, SatisfiesCp instD a e flags := by
  refine ⟨by decide, ?_⟩
  rintro ⟨a, e, flags, hsat⟩
  obtain ⟨v, hv, hav⟩ := rowCount_one_exists (hsat.1 0 (by decide))
  have hv1 : v < 1 := hv
  have hv0 : v = 0 := by omega
  rw [hv0] at hav
  obtain ⟨hflag, hinact, _⟩ := hsat.2.2.2.2.2.1 0 (by decide)
  cases hf0 : flags 0 0
  · have hforb := hinact 0 (by decide) hf0 0 (by decide) 0 (by decide)
    rw [hforb] at hav
    exact Bool.noConfusion hav
  · cases hf1 : flags 0 1
    · have hforb := hinact 1 (by decide) hf1 0 (by decide) 0 (by decide)
      rw [hforb] at hav
      exact Bool.noConfusion hav
    · have h01 : (0 : Nat) = 1 :=
        countP_range_le_one_unique (le_of_eq hflag) 0 (by decide) hf0 1 (by decide) hf1
      exact absurd h01 (by decide)

/-- C1: for every at-most-k constraint `(k, steps)` of a well-formed instance
and every model reported SAT by either backend — a valuation of the grid and
of the auxiliary pair-equality booleans introduced for every unordered pair of
every (k+1)-combination of `steps`, satisfying the implications towards
identical assignments and the at-least-one-equality clause per combination —
the number of distinct users assigned to steps of `steps` is at most `k`.
Each backend's bound is conditioned only on that backend's own model. -/
theorem C1_at_most_k_distinct_users (inst : Instance) (hwf : inst.WF)
    (k : Nat) (steps : List Nat) (hmem : (k, steps) ∈ inst.at_most_k)
    (aC : Nat → Nat → Bool) (eC : Nat → Nat → Nat → Bool) (fC : Nat → Nat → Bool)
    (aZ : Nat → Nat → Bool) (eqb : Nat → Nat → Bool) :
    (SatisfiesCp inst aC eC fC → performersCount inst.number_of_users aC steps ≤ k) ∧
    (SatisfiesZ3 inst aZ eqb → performersCount inst.number_of_users aZ steps ≤ k) := by
  have hsteps : ∀ s ∈ steps, s < inst.number_of_steps := hwf.2.2.2.1 (k, steps) hmem
  constructor
  · intro hC
    refine performers_le inst.number_of_steps inst.number_of_users k aC steps hC.1 hsteps ?_
    intro comb hcomb
    exact (exists_cpAtMost_iff inst aC).mp ⟨eC, hC.2.2.2.2.1⟩ (k, steps) hmem comb hcomb
  · intro hZ
    refine performers_le inst.number_of_steps inst.number_of_users k aZ steps
      (z3AssignOK_rowCount hZ.1) hsteps ?_
    intro comb hcomb
    exact (exists_z3AtMost_iff inst aZ).mp ⟨eqb, hZ.2.2.2.2.1⟩ (k, steps) hmem comb hcomb

/-- Witness for C1: the instance `instW1` (2 steps, 2 users, `At-most-k 1 s1
s2`) with the model sending both steps to user 0 (which satisfies both
backends' models, so neither implication is vacuous there). -/
theorem C1_at_most_k_distinct_users_witness :
    instW1.WF ∧ (1, [0, 1]) ∈ instW1.at_most_k ∧
    SatisfiesCp instW1 gridU0 auxTrue3 auxFalse2 ∧
    SatisfiesZ3 instW1 gridU0 auxTrue2 ∧
    ((SatisfiesCp instW1 gridU0 auxTrue3 auxFalse2 →
        performersCount instW1.number_of_users gridU0 [0, 1] ≤ 1) ∧
     (SatisfiesZ3 instW1 gridU0 auxTrue2 →
        performersCount instW1.number_of_users gridU0 [0, 1] ≤ 1)) :=
  ⟨by decide, by decide, by decide, by decide,
   C1_at_most_k_distinct_users instW1 (by decide) 1 [0, 1] (by decide)
     gridU0 auxTrue3 auxFalse2 gridU0 auxTrue2⟩

/-- C2 counterexample: the claim's second half — "for every instance with
userCount == 0 and stepCount > 0, the result is UNSAT" — is false on the code
for the Z3 backend.  On the concrete instance with 1 step and 0 users,
main2.py's first `AtMost` call receives only the bound argument, so z3py
raises a Z3Exception and `Solver_z3` crashes during encoding, before
`check()`: no result, in particular no UNSAT result, is produced.  (main.py,
by contrast, does report UNSAT there: its model has no valuation.) -/
theorem C2_counterexample :
    inst01.number_of_users = 0 ∧ 0 < inst01.number_of_steps ∧
    ¬z3EncodeOK inst01 ∧
    (¬∃ a e flags, SatisfiesCp inst01 a e flags) := by
  refine ⟨rfl, by decide, by decide, ?_⟩
  rintro ⟨a, e, flags, hsat⟩
  have h01 : (0 : Nat) = 1 := hsat.1 0 (by decide)
  exact absurd h01 (by decide)

/-- C2 amended: in every model reported SAT by a backend, every step has
exactly one assigned user (at least one user and at most one user true in its
grid row), each backend's conclusion conditioned only on that backend's own
model; and for every instance with `userCount = 0` and `stepCount > 0`,
main.py's model has no satisfying valuation — OR-Tools reports a non-SAT
status and the driver prints UNSAT — while main2.py never reaches `check()`:
its encoding raises a Z3Exception in `AtMost` on the empty row, so the Z3
driver crashes instead of reporting UNSAT. -/
theorem C2_exactly_one_user_per_backend (inst : Instance)
    (aC : Nat → Nat → Bool) (eC : Nat → Nat → Nat → Bool) (fC : Nat → Nat → Bool)
    (aZ : Nat → Nat → Bool) (eqb : Nat → Nat → Bool)
    (s : Nat) (hs : s < inst.number_of_steps) :
    (SatisfiesCp inst aC eC fC →
      ∃ u, u < inst.number_of_users ∧ aC s u = true ∧
        ∀ v, v < inst.number_of_users → aC s v = true → v = u) ∧
    (SatisfiesZ3 inst aZ eqb →
      ∃ u, u < inst.number_of_users ∧ aZ s u = true ∧
        ∀ v, v < inst.number_of_users → aZ s v = true → v = u) ∧
    (∀ inst2 : Instance, inst2.number_of_users = 0 → 0 < inst2.number_of_steps →
      (¬∃ a e flags, SatisfiesCp inst2 a e flags) ∧ ¬z3EncodeOK inst2) := by
  refine ⟨?_, ?_, ?_⟩
  · intro hC
    obtain ⟨u, hu, hau⟩ := rowCount_one_exists (hC.1 s hs)
    exact ⟨u, hu, hau, fun v hv hav =>
      rowCount_le_one_unique (le_of_eq (hC.1 s hs)) v hv hav u hu hau⟩
  · intro hZ
    have hrc := z3AssignOK_rowCount hZ.1 s hs
    obtain ⟨u, hu, hau⟩ := rowCount_one_exists hrc
    exact ⟨u, hu, hau, fun v hv hav =>
      rowCount_le_one_unique (le_of_eq hrc) v hv hav u hu hau⟩
  · intro inst2 hnu hns
    constructor
    · rintro ⟨a, e, flags, hsat⟩
      have hrow := hsat.1 0 hns
      rw [hnu] at hrow
      simp [rowCount] at hrow
    · intro henc
      have := henc 0 hns
      rw [hnu] at this
      omega

/-- Witness for the amended C2: the instance `instW2` (1 step, 1 user, no
constraints) with the model sending the step to the single user. -/
theorem C2_exactly_one_user_per_backend_witness :
    0 < instW2.number_of_steps ∧
    SatisfiesCp instW2 gridU0 auxTrue3 auxFalse2 ∧
    SatisfiesZ3 instW2 gridU0 auxTrue2 ∧
    ((SatisfiesCp instW2 gridU0 auxTrue3 auxFalse2 →
      ∃ u, u < instW2.number_of_users ∧ gridU0 0 u = true ∧
        ∀ v, v < instW2.number_of_users → gridU0 0 v = true → v = u) ∧
    (SatisfiesZ3 instW2 gridU0 auxTrue2 →
      ∃ u, u < instW2.number_of_users ∧ gridU0 0 u = true ∧
        ∀ v, v < instW2.number_of_users → gridU0 0 v = true → v = u) ∧
    (∀ inst2 : Instance, inst2.number_of_users = 0 → 0 < inst2.number_of_steps →
      (¬∃ a e flags, SatisfiesCp inst2 a e flags) ∧ ¬z3EncodeOK inst2)) :=
  ⟨by decide, by decide, by decide,
   C2_exactly_one_user_per_backend instW2 gridU0 auxTrue3 auxFalse2
     gridU0 auxTrue2 0 (by decide)⟩

/-- C3: every model reported SAT by either backend assigns every user at most
10 steps (the `max_steps_per_user = 10` and `max_workload = 10` bound present
in both solvers but in none of the spec's five constraint families), each
backend's bound conditioned only on that backend's own model; consequently
`inst11` (11 steps, 1 user, no constraints), which satisfies the five
constraint families, has no satisfying valuation of either full model and is
therefore reported UNSAT. -/
theorem C3_max_load_bound (inst : Instance)
    (aC : Nat → Nat → Bool) (eC : Nat → Nat → Nat → Bool) (fC : Nat → Nat → Bool)
    (aZ : Nat → Nat → Bool) (eqb : Nat → Nat → Bool)
    (u : Nat) (hu : u < inst.number_of_users) :
    (SatisfiesCp inst aC eC fC → loadOf inst.number_of_steps aC u ≤ 10) ∧
    (SatisfiesZ3 inst aZ eqb → loadOf inst.number_of_steps aZ u ≤ 10) ∧
    (∃ a e flags, SatisfiesCpNoLoad inst11 a e flags) ∧
    (∃ a eqb2, SatisfiesZ3NoLoad inst11 a eqb2) ∧
    (¬∃ a e flags, SatisfiesCp inst11 a e flags) ∧
    (¬∃ a eqb2, SatisfiesZ3 inst11 a eqb2) := by
  refine ⟨fun hC => hC.2.2.2.2.2.2 u hu, fun hZ => hZ.2.2.2.2.2.2 u hu, ?_, ?_, ?_, ?_⟩
  · exact ⟨gridU0, auxTrue3, auxFalse2, by decide⟩
  · exact ⟨gridU0, auxTrue2, by decide⟩
  · rintro ⟨a, e, flags, hsat⟩
    have hall : ∀ s, s < 11 → a s 0 = true := by
      intro s hs
      obtain ⟨v, hv, hav⟩ := rowCount_one_exists (hsat.1 s hs)
      have hv1 : v < 1 := hv
      have hv0 : v = 0 := by omega
      rw [← hv0]
      exact hav
    have hload : loadOf 11 a 0 ≤ 10 := hsat.2.2.2.2.2.2 0 (by decide)
    have h11 : loadOf 11 a 0 = 11 := by
      have hlen : loadOf 11 a 0 = (List.range 11).length := by
        unfold loadOf
        rw [List.countP_eq_length]
        intro s hsmem
        exact hall s (List.mem_range.mp hsmem)
      simpa using hlen
    omega
  · rintro ⟨a, eqb2, hsat⟩
    have hall : ∀ s, s < 11 → a s 0 = true := by
      intro s hs
      obtain ⟨⟨v, hv, hav⟩, _⟩ := hsat.1 s hs
      have hv1 : v < 1 := List.mem_range.mp hv
      have hv0 : v = 0 := by omega
      rw [← hv0]
      exact hav
    have hload : loadOf 11 a 0 ≤ 10 := hsat.2.2.2.2.2.2 0 (by decide)
    have h11 : loadOf 11 a 0 = 11 := by
      have hlen : loadOf 11 a 0 = (List.range 11).length := by
        unfold loadOf
        rw [List.countP_eq_length]
        intro s hsmem
        exact hall s (List.mem_range.mp hsmem)
      simpa using hlen
    omega

/-- Witness for C3: the instance `instW2` with its unique model (which
satisfies both backends' models, so neither implication is vacuous there). -/
theorem C3_max_load_bound_witness :
    SatisfiesCp instW2 gridU0 auxTrue3 auxFalse2 ∧
    SatisfiesZ3 instW2 gridU0 auxTrue2 ∧ 0 < instW2.number_of_users ∧
    ((SatisfiesCp instW2 gridU0 auxTrue3 auxFalse2 →
       loadOf instW2.number_of_steps gridU0 0 ≤ 10) ∧
     (SatisfiesZ3 instW2 gridU0 auxTrue2 →
       loadOf instW2.number_of_steps gridU0 0 ≤ 10) ∧
     (∃ a e flags, SatisfiesCpNoLoad inst11 a e flags) ∧
     (∃ a eqb2, SatisfiesZ3NoLoad inst11 a eqb2) ∧
     (¬∃ a e flags, SatisfiesCp inst11 a e flags) ∧
     (¬∃ a eqb2, SatisfiesZ3 inst11 a eqb2)) :=
  ⟨by decide, by decide, by decide,
   C3_max_load_bound instW2 gridU0 auxTrue3 auxFalse2
     gridU0 auxTrue2 0 (by decide)⟩

/-- C4 counterexample: the claim "a timeout, or any solver outcome other than
SAT/UNSAT, is never reported as UNSAT" is false on the code.  Neither driver
accepts a caller-supplied timeout, and the `UNKNOWN` outcome — the status
CP-SAT and Z3 return when search is interrupted, e.g. by a time budget — is
reported by main.py with exactly the same "Status: Unsatisfiable" line as
INFEASIBLE, and by main2.py with exactly the same `'unsat'` field as `unsat`;
no distinct TIMEOUT status exists. -/
theorem C4_counterexample :
    statusLine (cpSatField CpStatus.UNKNOWN) = "Status: Unsatisfiable" ∧
    statusLine (cpSatField CpStatus.UNKNOWN) = statusLine (cpSatField CpStatus.INFEASIBLE) ∧
    z3SatField Z3CheckResult.unknown = z3SatField Z3CheckResult.unsat := by
  decide

/-- C4 amended: neither driver supports a timeout or a distinct TIMEOUT
status; every solver outcome other than OPTIMAL/FEASIBLE (for OR-Tools),
respectively other than `sat` (for Z3) — including the UNKNOWN outcome of an
interrupted search — is reported with the same status as UNSAT. -/
theorem C4_no_timeout_status (st : CpStatus)
    (h1 : st ≠ CpStatus.OPTIMAL) (h2 : st ≠ CpStatus.FEASIBLE)
    (r : Z3CheckResult) (h3 : r ≠ Z3CheckResult.sat) :
    cpSatField st = "unsat" ∧
    statusLine (cpSatField st) = "Status: Unsatisfiable" ∧
    z3SatField r = "unsat" := by
  cases st <;> cases r <;> first
    | exact absurd rfl h1
    | exact absurd rfl h2
    | exact absurd rfl h3
    | decide

/-- Witness for the amended C4 at the UNKNOWN outcomes. -/
theorem C4_no_timeout_status_witness :
    CpStatus.UNKNOWN ≠ CpStatus.OPTIMAL ∧ CpStatus.UNKNOWN ≠ CpStatus.FEASIBLE ∧
    Z3CheckResult.unknown ≠ Z3CheckResult.sat ∧
    (cpSatField CpStatus.UNKNOWN = "unsat" ∧
     statusLine (cpSatField CpStatus.UNKNOWN) = "Status: Unsatisfiable" ∧
     z3SatField Z3CheckResult.unknown = "unsat") :=
  ⟨by decide, by decide, by decide,
   C4_no_timeout_status CpStatus.UNKNOWN (by decide) (by decide)
     Z3CheckResult.unknown (by decide)⟩

/-- C5 counterexample: on `instCE` (3 steps, 1 user, `At-most-k 2 s1 s2 s3`)
the two multiplicity strategies disagree.  The CP model has 7 satisfying
valuations — one grid, combined with the 7 ways of making at least one of the
three free pair-equality booleans true — and CP-SAT's
`enumerate_all_solutions` enumerates distinct assignments to all model
variables, so main.py's callback counts 7 > 1 and reports MULTIPLE.  Every Z3
model shares the single grid (all three steps to user 1), so the re-solve
after main2.py's grid-blocking clause is UNSAT and the Z3 driver reports
UNIQUE. -/
theorem C5_counterexample :
    cpMulMsg cpFullCE.card = "other solutions exist, 7 solutions found" ∧
    z3FullCE.Nonempty ∧
    (z3FullCE.image ceGridPart).card = 1 ∧
    z3MulMsg (decide (1 < (z3FullCE.image ceGridPart).card)) = "this is the only solution" := by
  decide

/-- C5 amended: the two multiplicity strategies need not produce the same
UNIQUE/MULTIPLE classification — models that differ only in auxiliary
booleans make the enumeration strategy report MULTIPLE where the
blocking-clause strategy reports UNIQUE.  Only one direction holds, and (the
two backends' one-team encodings being different) we state it for instances
without one-team constraints: if the blocking-clause strategy finds two
models differing on the assignment grid, both grids carry full CP models, so
the enumeration strategy also sees at least two distinct solutions and
reports MULTIPLE as well. -/
theorem C5_blocking_multiple_implies_enum_multiple (inst : Instance)
    (hteam : inst.one_team = [])
    (a : Nat → Nat → Bool) (eqb : Nat → Nat → Bool) (h : SatisfiesZ3 inst a eqb)
    (a2 : Nat → Nat → Bool) (eqb2 : Nat → Nat → Bool) (h2 : SatisfiesZ3 inst a2 eqb2)
    (s u : Nat) (hs : s < inst.number_of_steps) (hu : u < inst.number_of_users)
    (hne : a s u ≠ a2 s u) :
    (∃ e flags, SatisfiesCp inst a e flags) ∧
    (∃ e flags, SatisfiesCp inst a2 e flags) ∧ a s u ≠ a2 s u :=
  ⟨z3_to_cp_of_no_one_team inst hteam a eqb h,
   z3_to_cp_of_no_one_team inst hteam a2 eqb2 h2, hne⟩

/-- Witness for the amended C5: `instW5` (1 step, 2 users, no constraints)
with the two Z3 models assigning the step to user 0 and user 1. -/
theorem C5_blocking_multiple_implies_enum_multiple_witness :
    instW5.one_team = [] ∧
    SatisfiesZ3 instW5 gridU0 auxTrue2 ∧ SatisfiesZ3 instW5 gridU1 auxTrue2 ∧
    0 < instW5.number_of_steps ∧ 0 < instW5.number_of_users ∧
    gridU0 0 0 ≠ gridU1 0 0 ∧
    ((∃ e flags, SatisfiesCp instW5 gridU0 e flags) ∧
     (∃ e flags, SatisfiesCp instW5 gridU1 e flags) ∧ gridU0 0 0 ≠ gridU1 0 0) :=
  ⟨rfl, by decide, by decide, by decide, by decide, by decide,
   C5_blocking_multiple_implies_enum_multiple instW5 rfl gridU0 auxTrue2 (by decide)
     gridU1 auxTrue2 (by decide) 0 0 (by decide) (by decide) (by decide)⟩

/-- C6: for every one-team constraint `(steps, teams)` of a well-formed
instance and every model reported SAT by either backend, there is a candidate
team whose members perform all the steps of the constraint (one team covers
the whole step set); and a user belonging to no candidate team performs no
step of the constraint.  Each backend's conclusion is conditioned only on
that backend's own model (the two one-team encodings differ, so one backend
may report SAT where the other has no model at all). -/
theorem C6_one_team (inst : Instance) (hwf : inst.WF)
    (steps : List Nat) (teams : List (List Nat)) (hmem : (steps, teams) ∈ inst.one_team)
    (aC : Nat → Nat → Bool) (eC : Nat → Nat → Nat → Bool) (fC : Nat → Nat → Bool)
    (aZ : Nat → Nat → Bool) (eqb : Nat → Nat → Bool) :
    (SatisfiesCp inst aC eC fC →
      (∃ tm ∈ teams, ∀ s ∈ steps, ∀ u, u < inst.number_of_users →
        aC s u = true → u ∈ tm) ∧
      (∀ u, u < inst.number_of_users → (∀ tm ∈ teams, u ∉ tm) →
        ∀ s ∈ steps, aC s u = false)) ∧
    (SatisfiesZ3 inst aZ eqb →
      (∃ tm ∈ teams, ∀ s ∈ steps, ∀ u, u < inst.number_of_users →
        aZ s u = true → u ∈ tm) ∧
      (∀ u, u < inst.number_of_users → (∀ tm ∈ teams, u ∉ tm) →
        ∀ s ∈ steps, aZ s u = false)) := by
  constructor
  · intro hC
    obtain ⟨c, hc, hgetc⟩ := List.mem_iff_getElem.mp hmem
    have hkey : oneTeamAt inst c = (steps, teams) := by
      rw [oneTeamAt, List.getD_eq_getElem inst.one_team ([], []) hc, hgetc]
    have hOT := hC.2.2.2.2.2.1 c hc
    rw [hkey] at hOT
    obtain ⟨hflag, hinact, hnoteam⟩ := hOT
    obtain ⟨t0, ht0, hft0⟩ := countP_range_one_exists hflag
    have htm0mem : teams.getD t0 [] ∈ teams := by
      rw [List.getD_eq_getElem teams [] ht0]
      exact List.getElem_mem _
    refine ⟨⟨teams.getD t0 [], htm0mem, ?_⟩,
      fun u hu hall s hsm => hnoteam s hsm u hu hall⟩
    intro s hsmem u hu hau
    by_contra hnotin
    by_cases hany : ∀ tm ∈ teams, u ∉ tm
    · rw [hnoteam s hsmem u hu hany] at hau
      exact Bool.noConfusion hau
    · push_neg at hany
      obtain ⟨tm, htm, hutm⟩ := hany
      obtain ⟨t1, ht1, hget1⟩ := List.mem_iff_getElem.mp htm
      have ht1ne : t1 ≠ t0 := by
        intro hh
        apply hnotin
        have hgd : teams.getD t0 [] = tm := by
          rw [← hh, List.getD_eq_getElem teams [] ht1, hget1]
        rw [hgd]
        exact hutm
      have hft1 : fC c t1 = false := by
        cases hval : fC c t1
        · rfl
        · exact absurd
            (countP_range_le_one_unique (le_of_eq hflag) t1 ht1 hval t0 ht0 hft0) ht1ne
      have humem : u ∈ teams.getD t1 [] := by
        rw [List.getD_eq_getElem teams [] ht1, hget1]
        exact hutm
      have hforb := hinact t1 ht1 hft1 s hsmem u humem
      rw [hforb] at hau
      exact Bool.noConfusion hau
  · intro hZ
    obtain ⟨tmz, htmz, hcover⟩ := hZ.2.2.2.2.2.1 (steps, teams) hmem
    have hzmain : ∀ s ∈ steps, ∀ u, u < inst.number_of_users →
        aZ s u = true → u ∈ tmz := by
      intro s hsmem u hu hau
      obtain ⟨v, hvtm, hav⟩ := hcover s hsmem
      have hvlt : v < inst.number_of_users :=
        (hwf.2.2.2.2 (steps, teams) hmem).2 tmz htmz v hvtm
      have hslt : s < inst.number_of_steps :=
        (hwf.2.2.2.2 (steps, teams) hmem).1 s hsmem
      have huv : u = v :=
        rowCount_le_one_unique (hZ.1 s hslt).2 u hu hau v hvlt hav
      rw [huv]
      exact hvtm
    refine ⟨⟨tmz, htmz, hzmain⟩, fun u hu hall s hsm => ?_⟩
    cases hval : aZ s u
    · rfl
    · exact absurd (hzmain s hsm u hu hval) (hall tmz htmz)

/-- Witness for C6: `instW6` (1 step, 2 users, `One-team s1 (u1) (u2)`) with
the model sending the step to user 0 and team 0 active (which satisfies both
backends' models, so neither implication is vacuous there). -/
theorem C6_one_team_witness :
    instW6.WF ∧ ([0], [[0], [1]]) ∈ instW6.one_team ∧
    SatisfiesCp instW6 gridU0 auxTrue3 flagT0 ∧
    SatisfiesZ3 instW6 gridU0 auxTrue2 ∧
    ((SatisfiesCp instW6 gridU0 auxTrue3 flagT0 →
      (∃ tm ∈ [[0], [1]], ∀ s ∈ [0], ∀ u, u < instW6.number_of_users →
        gridU0 s u = true → u ∈ tm) ∧
      (∀ u, u < instW6.number_of_users → (∀ tm ∈ [[0], [1]], u ∉ tm) →
        ∀ s ∈ [0], gridU0 s u = false)) ∧
     (SatisfiesZ3 instW6 gridU0 auxTrue2 →
      (∃ tm ∈ [[0], [1]], ∀ s ∈ [0], ∀ u, u < instW6.number_of_users →
        gridU0 s u = true → u ∈ tm) ∧
      (∀ u, u < instW6.number_of_users → (∀ tm ∈ [[0], [1]], u ∉ tm) →
        ∀ s ∈ [0], gridU0 s u = false))) :=
  ⟨by decide, by decide, by decide, by decide,
   C6_one_team instW6 (by decide) [0] [[0], [1]] (by decide)
     gridU0 auxTrue3 flagT0 gridU0 auxTrue2⟩

/-- C7: in every model reported SAT by either backend, a user whose parsed
authorization list is non-empty is never assigned a step outside that list;
and a user whose authorization list is empty is unrestricted — the
authorization encoder imposes nothing on that user's column, so rewriting it
arbitrarily preserves the authorization constraints.  Each backend's
conclusion is conditioned only on that backend's own model. -/
theorem C7_authorization_asymmetry (inst : Instance)
    (aC : Nat → Nat → Bool) (eC : Nat → Nat → Nat → Bool) (fC : Nat → Nat → Bool)
    (aZ : Nat → Nat → Bool) (eqb : Nat → Nat → Bool)
    (u : Nat) (hu : u < inst.number_of_users) :
    (SatisfiesCp inst aC eC fC →
      (inst.auth.getD u [] ≠ [] →
        ∀ s, s < inst.number_of_steps → ((s : Int) ∉ inst.auth.getD u []) →
          aC s u = false) ∧
      (inst.auth.getD u [] = [] →
        ∀ b : Nat → Bool, authOK inst (setColumn aC u b))) ∧
    (SatisfiesZ3 inst aZ eqb →
      (inst.auth.getD u [] ≠ [] →
        ∀ s, s < inst.number_of_steps → ((s : Int) ∉ inst.auth.getD u []) →
          aZ s u = false) ∧
      (inst.auth.getD u [] = [] →
        ∀ b : Nat → Bool, authOK inst (setColumn aZ u b))) := by
  constructor
  · intro hC
    constructor
    · intro hne s hs hnotin
      exact hC.2.1 u hu hne s hs hnotin
    · intro hempty b v hv hvne s hs hnotin
      unfold setColumn
      by_cases hvu : v = u
      · rw [hvu] at hvne
        exact absurd hempty hvne
      · rw [if_neg hvu]
        exact hC.2.1 v hv hvne s hs hnotin
  · intro hZ
    constructor
    · intro hne s hs hnotin
      exact hZ.2.1 u hu hne s hs hnotin
    · intro hempty b v hv hvne s hs hnotin
      unfold setColumn
      by_cases hvu : v = u
      · rw [hvu] at hvne
        exact absurd hempty hvne
      · rw [if_neg hvu]
        exact hZ.2.1 v hv hvne s hs hnotin

/-- Witness for C7: `instW2` (1 step, 1 user, empty authorization list; its
model satisfies both backends' constraints, so neither implication is vacuous
there). -/
theorem C7_authorization_asymmetry_witness :
    SatisfiesCp instW2 gridU0 auxTrue3 auxFalse2 ∧
    SatisfiesZ3 instW2 gridU0 auxTrue2 ∧ 0 < instW2.number_of_users ∧
    ((SatisfiesCp instW2 gridU0 auxTrue3 auxFalse2 →
      (instW2.auth.getD 0 [] ≠ [] →
        ∀ s, s < instW2.number_of_steps → ((s : Int) ∉ instW2.auth.getD 0 []) →
          gridU0 s 0 = false) ∧
      (instW2.auth.getD 0 [] = [] →
        ∀ b : Nat → Bool, authOK instW2 (setColumn gridU0 0 b))) ∧
     (SatisfiesZ3 instW2 gridU0 auxTrue2 →
      (instW2.auth.getD 0 [] ≠ [] →
        ∀ s, s < instW2.number_of_steps → ((s : Int) ∉ instW2.auth.getD 0 []) →
          gridU0 s 0 = false) ∧
      (instW2.auth.getD 0 [] = [] →
        ∀ b : Nat → Bool, authOK instW2 (setColumn gridU0 0 b)))) :=
  ⟨by decide, by decide, by decide,
   C7_authorization_asymmetry instW2 gridU0 auxTrue3 auxFalse2
     gridU0 auxTrue2 0 (by decide)⟩

/-- C8: parsing the constraint line `Authorisations u1` with no steps listed
leaves the `-1` placeholder in user 1's authorization list (`authSteps [] =
[-1]`), so the list is non-empty yet contains no actual step; on the
1-step/1-user instance `instC8` built from it, step 1 is unassignable and
neither backend's model has a satisfying valuation — the result is UNSAT. -/
theorem C8_empty_authorisations_unsat :
    authSteps [] = [-1] ∧
    (∀ s, s < instC8.number_of_steps → ((s : Int) ∉ authSteps [])) ∧
    (¬∃ a e flags, SatisfiesCp instC8 a e flags) ∧
    (¬∃ a eqb, SatisfiesZ3 instC8 a eqb) := by
  refine ⟨by decide, by decide, ?_, ?_⟩
  · rintro ⟨a, e, flags, hsat⟩
    obtain ⟨v, hv, hav⟩ := rowCount_one_exists (hsat.1 0 (by decide))
    have hv1 : v < 1 := hv
    have hv0 : v = 0 := by omega
    rw [hv0] at hav
    have hforb : a 0 0 = false :=
      hsat.2.1 0 (by decide) (by decide) 0 (by decide) (by decide)
    rw [hforb] at hav
    exact Bool.noConfusion hav
  · rintro ⟨a, eqb, hsat⟩
    obtain ⟨⟨v, hv, hav⟩, _⟩ := hsat.1 0 (by decide)
    have hv1 : v < 1 := List.mem_range.mp hv
    have hv0 : v = 0 := by omega
    rw [hv0] at hav
    have hforb : a 0 0 = false :=
      hsat.2.1 0 (by decide) (by decide) 0 (by decide) (by decide)
    rw [hforb] at hav
    exact Bool.noConfusion hav

/-- C9: for every binding-of-duty pair `(s1, s2)` of a well-formed instance
and every model reported SAT by either backend, the two steps have identical
user assignments: for every user `u`, `assigned[s1][u]` holds iff
`assigned[s2][u]` does.  (main.py only posts the implication from `s1` to
`s2`, but combined with exactly-one-user-per-step it forces equality.)  Each
backend's conclusion is conditioned only on that backend's own model. -/
theorem C9_binding_of_duty (inst : Instance) (hwf : inst.WF)
    (s1 s2 : Nat) (hmem : (s1, s2) ∈ inst.BOD)
    (aC : Nat → Nat → Bool) (eC : Nat → Nat → Nat → Bool) (fC : Nat → Nat → Bool)
    (aZ : Nat → Nat → Bool) (eqb : Nat → Nat → Bool)
    (u : Nat) (hu : u < inst.number_of_users) :
    (SatisfiesCp inst aC eC fC → aC s1 u = aC s2 u) ∧
    (SatisfiesZ3 inst aZ eqb → aZ s1 u = aZ s2 u) := by
  have hb := hwf.2.2.1 (s1, s2) hmem
  constructor
  · intro hC
    cases h1 : aC s1 u
    · cases h2 : aC s2 u
      · rfl
      · exfalso
        obtain ⟨p, hp, hap⟩ := rowCount_one_exists (hC.1 s1 hb.1)
        have hap2 : aC s2 p = true := hC.2.2.2.1 (s1, s2) hmem p hp hap
        have hup : u = p :=
          rowCount_le_one_unique (le_of_eq (hC.1 s2 hb.2)) u hu h2 p hp hap2
        rw [← hup] at hap
        rw [h1] at hap
        exact Bool.noConfusion hap
    · rw [hC.2.2.2.1 (s1, s2) hmem u hu h1]
  · intro hZ
    exact hZ.2.2.2.1 (s1, s2) hmem u hu

/-- Witness for C9: `instW9` (2 steps, 1 user, `Binding-of-duty s1 s2`) with
the model sending both steps to the single user (which satisfies both
backends' models, so neither implication is vacuous there). -/
theorem C9_binding_of_duty_witness :
    instW9.WF ∧ (0, 1) ∈ instW9.BOD ∧
    SatisfiesCp instW9 gridU0 auxTrue3 auxFalse2 ∧
    SatisfiesZ3 instW9 gridU0 auxTrue2 ∧ 0 < instW9.number_of_users ∧
    ((SatisfiesCp instW9 gridU0 auxTrue3 auxFalse2 → gridU0 0 0 = gridU0 1 0) ∧
     (SatisfiesZ3 instW9 gridU0 auxTrue2 → gridU0 0 0 = gridU0 1 0)) :=
  ⟨by decide, by decide, by decide, by decide, by decide,
   C9_binding_of_duty instW9 (by decide) 0 1 (by decide)
     gridU0 auxTrue3 auxFalse2 gridU0 auxTrue2 0 (by decide)⟩

/-- Removing the at-most-k constraints whose step set is smaller than k+1
changes nothing at grid level: such constraints generate no combination. -/
theorem atMostGrid_dropVacuous (inst : Instance) (a : Nat → Nat → Bool) :
    atMostGridOK (dropVacuousAtMost inst) a ↔ atMostGridOK inst a := by
  constructor
  · intro h p hp comb hcomb
    by_cases hlen : p.1 + 1 ≤ p.2.length
    · refine h p ?_ comb hcomb
      exact List.mem_filter.mpr ⟨hp, decide_eq_true hlen⟩
    · exfalso
      have hnil : amkCombs p = [] := combinations_eq_nil (by omega)
      rw [hnil] at hcomb
      cases hcomb
  · intro h p hp comb hcomb
    exact h p (List.mem_filter.mp hp).1 comb hcomb

/-- C10: an at-most-k constraint whose step set has fewer than k+1 steps is
vacuous: it generates no (k+1)-combination, hence no clause and no error, and
for every grid the full model of either backend is satisfiable with the
constraint exactly when it is satisfiable with all such vacuous constraints
removed — the solve outcome is as if the constraint were absent. -/
theorem C10_short_at_most_k_vacuous (inst : Instance) (k : Nat) (steps : List Nat)
    (hmem : (k, steps) ∈ inst.at_most_k) (hshort : steps.length < k + 1)
    (a : Nat → Nat → Bool) :
    amkCombs (k, steps) = [] ∧
    ((∃ e flags, SatisfiesCp inst a e flags) ↔
      (∃ e flags, SatisfiesCp (dropVacuousAtMost inst) a e flags)) ∧
    ((∃ eqb, SatisfiesZ3 inst a eqb) ↔
      (∃ eqb, SatisfiesZ3 (dropVacuousAtMost inst) a eqb)) := by
  refine ⟨combinations_eq_nil hshort, ?_, ?_⟩
  · rw [exists_satCp_iff, exists_satCp_iff]
    constructor
    · rintro ⟨h1, h2, h3, h4, h5, h6, h7⟩
      exact ⟨h1, h2, h3, h4, (atMostGrid_dropVacuous inst a).mpr h5, h6, h7⟩
    · rintro ⟨h1, h2, h3, h4, h5, h6, h7⟩
      exact ⟨h1, h2, h3, h4, (atMostGrid_dropVacuous inst a).mp h5, h6, h7⟩
  · rw [exists_satZ3_iff, exists_satZ3_iff]
    constructor
    · rintro ⟨h1, h2, h3, h4, h5, h6, h7⟩
      exact ⟨h1, h2, h3, h4, (atMostGrid_dropVacuous inst a).mpr h5, h6, h7⟩
    · rintro ⟨h1, h2, h3, h4, h5, h6, h7⟩
      exact ⟨h1, h2, h3, h4, (atMostGrid_dropVacuous inst a).mp h5, h6, h7⟩

/-- Witness for C10: `instW10` (1 step, 1 user, `At-most-k 2 s1`, whose step
set of size 1 is smaller than k+1 = 3). -/
theorem C10_short_at_most_k_vacuous_witness :
    (2, [0]) ∈ instW10.at_most_k ∧ ([0] : List Nat).length < 2 + 1 ∧
    (amkCombs (2, [0]) = [] ∧
     ((∃ e flags, SatisfiesCp instW10 gridU0 e flags) ↔
       (∃ e flags, SatisfiesCp (dropVacuousAtMost instW10) gridU0 e flags)) ∧
     ((∃ eqb, SatisfiesZ3 instW10 gridU0 eqb) ↔
       (∃ eqb, SatisfiesZ3 (dropVacuousAtMost instW10) gridU0 eqb))) :=
  ⟨by decide, by decide,
   C10_short_at_most_k_vacuous instW10 2 [0] (by decide) (by decide) gridU0⟩

end WSP
